import Mathlib

/-!
# Verification of `loadcfg` (Config view + Template schema engine)

Shallow embedding of `src/loadcfg/__init__.py`:
* `Value` models the Python runtime values manipulated by the library
  (scalars, lists, plain dicts, and `Config` objects — `Config` is a
  `dict` subclass, so it is kept as a distinct constructor that still
  counts as a mapping wherever the code tests `isinstance(x, dict)`).
* `Config.ofValue` embeds `Config.__init__` together with
  `Config._convert_value` (recursive conversion of nested dicts and of
  dicts found inside lists).
* `Ty` models an expected-type descriptor held in a `Template`'s
  `_fields` table; `Template.validateFields` embeds `Template.validate`
  and `Template.generateCfg` embeds `Template.generate` /
  `Template._generate_example_dict` / `_get_example_value`.
The embedding is purely functional; the Python constructor only reads
`data.items()` and fills a fresh dict, so the "does not mutate the
input" part of the construction contract is represented by purity of
`Config.ofValue`.
-/

namespace Loadcfg

/-- Python runtime values visible to the library: `None`, booleans,
integers, floats (modelled with an integer payload — the library only
ever produces `0.0`), strings, lists, plain dicts, and `Config`
objects.  Dicts and Configs are ordered association lists of
string-keyed entries, mirroring Python 3 insertion-ordered dicts. -/
inductive Value where
  | vnone : Value
  | vbool : Bool → Value
  | vint : Int → Value
  | vfloat : Int → Value
  | vstr : String → Value
  | vlist : List Value → Value
  | vdict : List (String × Value) → Value
  | vconfig : List (String × Value) → Value
  deriving Repr, Inhabited

/-- First-match association-list lookup: the semantics of `d[k]` on a
Python dict represented as its insertion-ordered entry list (an entry
list built by `setKey` never holds a key twice). -/
def lookup : List (String × Value) → String → Option Value
  | [], _ => none
  | (k, v) :: rest, key => if k = key then some v else lookup rest key

/-- `d[k] = v` on a Python dict: overwrite in place when the key is
present (keeping its position, as Python dicts do), append otherwise. -/
def setKey : List (String × Value) → String → Value → List (String × Value)
  | [], key, v => [(key, v)]
  | (k, w) :: rest, key, v =>
      if k = key then (key, v) :: rest else (k, w) :: setKey rest key v

mutual

/-- `Config._convert_value`: a dict (or a `Config`, which *is* a dict)
becomes a freshly built `Config`; a list converts each element
independently; anything else is returned unchanged. -/
def convertValue : Value → Value
  | .vdict kvs => .vconfig (buildEntries kvs [])
  | .vconfig kvs => .vconfig (buildEntries kvs [])
  | .vlist xs => .vlist (convertItems xs)
  | v => v

/-- Elementwise conversion of a Python list (the comprehension in
`_convert_value`). -/
def convertItems : List Value → List Value
  | [] => []
  | x :: xs => convertValue x :: convertItems xs

/-- The loop body of `Config.__init__`: starting from an empty dict,
execute `self[key] = self._convert_value(value)` for each entry of
`data.items()` in order. -/
def buildEntries : List (String × Value) → List (String × Value) → List (String × Value)
  | [], acc => acc
  | (k, v) :: rest, acc => buildEntries rest (setKey acc k (convertValue v))

end

/-- `Config.__init__(data)`: raise `ValueError` unless `data` is a dict
(a `Config` also passes the `isinstance(data, dict)` test), otherwise
build the converted entry list. -/
def Config.ofValue : Value → Except String Value
  | .vdict kvs => .ok (.vconfig (buildEntries kvs []))
  | .vconfig kvs => .ok (.vconfig (buildEntries kvs []))
  | _ => .error "Config data must be a dictionary"

/-- Key-style read `obj[k]` (meaningful on dicts and Configs). -/
def getItemOpt : Value → String → Option Value
  | .vdict kvs, key => lookup kvs key
  | .vconfig kvs, key => lookup kvs key
  | _, _ => none

/-- Attribute-style read `obj.k` for the data keys of the library:
`Config.__getattr__` forwards to `self[item]`; a plain dict (or any
other value) exposes no data key as an attribute. -/
def getAttrOpt : Value → String → Option Value
  | .vconfig kvs, key => lookup kvs key
  | _, _ => none

/-- `Config.__setattr__` / `Config.__setitem__` both write `self[key] =
value` on the same underlying dict; the value is stored as given, with
no recursive conversion. -/
def Config.setField (kvs : List (String × Value)) (key : String) (v : Value) :
    List (String × Value) :=
  setKey kvs key v

mutual

/-- Erase the `Config`-vs-dict distinction everywhere, giving the bare
generic tree underneath a value: the notion of "structural equality"
between a converted value and its source. -/
def strip : Value → Value
  | .vdict kvs => .vdict (stripEntries kvs)
  | .vconfig kvs => .vdict (stripEntries kvs)
  | .vlist xs => .vlist (stripItems xs)
  | v => v

def stripItems : List Value → List Value
  | [] => []
  | x :: xs => strip x :: stripItems xs

def stripEntries : List (String × Value) → List (String × Value)
  | [] => []
  | (k, v) :: rest => (k, strip v) :: stripEntries rest

end

mutual

/-- Every mapping reachable inside the value (at any depth, including
inside lists) is a `Config`, never a raw dict: the invariant the
recursive conversion is meant to establish. -/
def allConfigs : Value → Bool
  | .vdict _ => false
  | .vconfig kvs => allConfigsEntries kvs
  | .vlist xs => allConfigsItems xs
  | _ => true

def allConfigsItems : List Value → Bool
  | [] => true
  | x :: xs => allConfigs x && allConfigsItems xs

def allConfigsEntries : List (String × Value) → Bool
  | [] => true
  | (_, v) :: rest => allConfigs v && allConfigsEntries rest

end

mutual

/-- A value is a well-formed generic tree when no mapping in it (at any
depth) repeats a key — the shape every real parser produces. -/
def wfKeys : Value → Prop
  | .vdict kvs => (kvs.map Prod.fst).Nodup ∧ wfKeysEntries kvs
  | .vconfig kvs => (kvs.map Prod.fst).Nodup ∧ wfKeysEntries kvs
  | .vlist xs => wfKeysItems xs
  | _ => True

def wfKeysItems : List Value → Prop
  | [] => True
  | x :: xs => wfKeys x ∧ wfKeysItems xs

def wfKeysEntries : List (String × Value) → Prop
  | [] => True
  | (_, v) :: rest => wfKeys v ∧ wfKeysEntries rest

end

/-- An expected-type descriptor held in a `Template`'s `_fields` table:
one of the primitive Python type objects the library recognises, a
reference to another `Template` subclass (carrying that subclass's own
field table), or some other class (carrying only its `__name__`, which
is all `validate` uses of it). -/
inductive Ty where
  | int : Ty
  | float : Ty
  | str : Ty
  | bool : Ty
  | list : Ty
  | dict : Ty
  | template : List (String × Ty) → Ty
  | other : String → Ty

/-- `expected_type.__name__`, as interpolated into the type-mismatch
message (a nested-`Template` descriptor never reaches that message:
`validate` branches to recursion first). -/
def tyName : Ty → String
  | .int => "int"
  | .float => "float"
  | .str => "str"
  | .bool => "bool"
  | .list => "list"
  | .dict => "dict"
  | .template _ => "Template"
  | .other n => n

/-- `type(value).__name__` for the runtime values of the model. -/
def typeName : Value → String
  | .vnone => "NoneType"
  | .vbool _ => "bool"
  | .vint _ => "int"
  | .vfloat _ => "float"
  | .vstr _ => "str"
  | .vlist _ => "list"
  | .vdict _ => "dict"
  | .vconfig _ => "Config"

/-- `isinstance(value, expected_type)` for a non-`Template` descriptor,
with Python's numeric tower: `bool` is a subclass of `int`, so a boolean
satisfies an `int` check; `Config` is a subclass of `dict`, so a Config
satisfies a `dict` check.  No model value is an instance of an
arbitrary other class. -/
def checkType (v : Value) : Ty → Bool
  | .int =>
      match v with
      | .vint _ => true
      | .vbool _ => true
      | _ => false
  | .float =>
      match v with
      | .vfloat _ => true
      | _ => false
  | .str =>
      match v with
      | .vstr _ => true
      | _ => false
  | .bool =>
      match v with
      | .vbool _ => true
      | _ => false
  | .list =>
      match v with
      | .vlist _ => true
      | _ => false
  | .dict =>
      match v with
      | .vdict _ => true
      | .vconfig _ => true
      | _ => false
  | .template _ => false
  | .other _ => false

/-- `Template.validate(config)`: walk `cls._fields` in order; for each
field, fail if `hasattr(config, field)` is false; read the value with
`getattr`; recurse when the expected type is a nested `Template`,
wrapping a nested failure's message in the current field name; otherwise
fail unless `isinstance(value, expected_type)`. -/
def Template.validateFields : List (String × Ty) → Value → Except String Unit
  | [], _ => .ok ()
  | (field, ty) :: rest, config =>
    match getAttrOpt config field with
    | none => .error ("Missing required field: '" ++ field ++ "'")
    | some value =>
      match ty with
      | .template inner =>
        match Template.validateFields inner value with
        | .ok _ => Template.validateFields rest config
        | .error e => .error ("In field '" ++ field ++ "': " ++ e)
      | _ =>
        if checkType value ty then Template.validateFields rest config
        else
          .error ("Field '" ++ field ++ "' expected type '" ++ tyName ty ++
            "', got '" ++ typeName value ++ "'")

mutual

/-- `_get_example_value` together with the nested-`Template` branch of
`_generate_example_dict`: a fixed example per primitive type tag, the
recursively built example dict for a nested schema, `None` for any
other class. -/
def exampleValue : Ty → Value
  | .int => .vint 0
  | .float => .vfloat 0
  | .str => .vstr "example"
  | .bool => .vbool false
  | .list => .vlist []
  | .dict => .vdict []
  | .template fields => .vdict (exampleBuild fields [])
  | .other _ => .vnone

/-- The loop of `_generate_example_dict`: `example[field] = …` for each
field in table order, starting from the empty dict. -/
def exampleBuild : List (String × Ty) → List (String × Value) → List (String × Value)
  | [], acc => acc
  | (field, ty) :: rest, acc => exampleBuild rest (setKey acc field (exampleValue ty))

end

/-- Indentation: `n` spaces. -/
def spaces (n : Nat) : String :=
  String.mk (List.replicate n ' ')

mutual

/-- Modelled from the spec: the external JSON format adapter's
`serialize` contract (`json.dumps(example_dict, indent=4)` — the JSON
codec is an out-of-scope collaborator).  Pretty-printed with 4-space
indentation, keys in insertion order, strings emitted without escape
processing (no generated example value needs any). -/
def jsonDumpVal (ind : Nat) : Value → String
  | .vnone => "null"
  | .vbool true => "true"
  | .vbool false => "false"
  | .vint n => toString n
  | .vfloat n => toString n ++ ".0"
  | .vstr s => "\"" ++ s ++ "\""
  | .vlist [] => "[]"
  | .vlist (x :: xs) =>
      "[\n" ++ jsonDumpItems (ind + 4) (x :: xs) ++ "\n" ++ spaces ind ++ "]"
  | .vdict [] => "\x7b\x7d"
  | .vdict (kv :: kvs) =>
      "\x7b\n" ++ jsonDumpMembers (ind + 4) (kv :: kvs) ++ "\n" ++ spaces ind ++ "\x7d"
  | .vconfig [] => "\x7b\x7d"
  | .vconfig (kv :: kvs) =>
      "\x7b\n" ++ jsonDumpMembers (ind + 4) (kv :: kvs) ++ "\n" ++ spaces ind ++ "\x7d"

def jsonDumpItems (ind : Nat) : List Value → String
  | [] => ""
  | [x] => spaces ind ++ jsonDumpVal ind x
  | x :: y :: rest =>
      spaces ind ++ jsonDumpVal ind x ++ ",\n" ++ jsonDumpItems ind (y :: rest)

def jsonDumpMembers (ind : Nat) : List (String × Value) → String
  | [] => ""
  | [(k, v)] => spaces ind ++ "\"" ++ k ++ "\": " ++ jsonDumpVal ind v
  | (k, v) :: kv :: rest =>
      spaces ind ++ "\"" ++ k ++ "\": " ++ jsonDumpVal ind v ++ ",\n" ++
        jsonDumpMembers ind (kv :: rest)

end

/-- Lexicographic order on character lists (by code point). -/
def charListLt : List Char → List Char → Bool
  | [], [] => false
  | [], _ :: _ => true
  | _ :: _, [] => false
  | a :: as, b :: bs =>
    if a.toNat < b.toNat then true
    else if b.toNat < a.toNat then false
    else charListLt as bs

/-- Lexicographic order on strings. -/
def strLt (a b : String) : Bool :=
  charListLt a.data b.data

/-- Sorted insertion of an entry by key (`<` on strings). -/
def yamlInsert (p : String × Value) : List (String × Value) → List (String × Value)
  | [] => [p]
  | q :: rest => if strLt p.1 q.1 then p :: q :: rest else q :: yamlInsert p rest

/-- Insertion sort of entries by key: PyYAML's `sort_keys=True` default. -/
def yamlSort : List (String × Value) → List (String × Value)
  | [] => []
  | p :: rest => yamlInsert p (yamlSort rest)

/-- Modelled from the spec: the external YAML adapter's scalar
rendering under `yaml.dump(…, default_flow_style=False)` for the
example values the generator produces (plain strings, integers, floats,
booleans, null, and empty containers). -/
def yamlScalar : Value → String
  | .vnone => "null"
  | .vbool true => "true"
  | .vbool false => "false"
  | .vint n => toString n
  | .vfloat n => toString n ++ ".0"
  | .vstr s => s
  | .vlist _ => "[]"
  | .vdict _ => "\x7b\x7d"
  | .vconfig _ => "\x7b\x7d"

/-- Modelled from the spec: the external YAML adapter's `serialize`
contract (`yaml.dump(example_dict, default_flow_style=False)`): one
`key: value` line per entry, keys sorted. -/
def yamlDumps (kvs : List (String × Value)) : String :=
  String.join ((yamlSort kvs).map fun kv => kv.1 ++ ": " ++ yamlScalar kv.2 ++ "\n")

/-- Python's `str.lower()` on the ASCII strings used as format
identifiers. -/
def pyLower (s : String) : String :=
  String.mk (s.data.map fun c => if c.isUpper then Char.ofNat (c.toNat + 32) else c)

/-- `Template.generate(fmt)`: build the example dict, then serialize it
as JSON when `fmt.lower()` is `"json"`, as YAML when it is `"yaml"` or
`"yml"`, and raise `ValueError` otherwise. -/
def Template.generateCfg (fields : List (String × Ty)) (fmt : String) :
    Except String String :=
  let ex := exampleBuild fields []
  if pyLower fmt = "json" then .ok (jsonDumpVal 0 (.vdict ex))
  else if pyLower fmt = "yaml" ∨ pyLower fmt = "yml" then .ok (yamlDumps ex)
  else .error "Unsupported format. Use 'json' or 'yaml'."

/-- Drop leading JSON whitespace. -/
def skipWs : List Char → List Char
  | c :: cs =>
      if c = ' ' ∨ c = '\n' ∨ c = '\t' ∨ c = '\r' then skipWs cs else c :: cs
  | [] => []

/-- Read a JSON string body up to the closing quote (no escapes — none
are produced by the generator). -/
def takeStr : List Char → List Char → Option (String × List Char)
  | [], _ => none
  | c :: cs, acc => if c = '"' then some (String.mk acc.reverse, cs) else takeStr cs (c :: acc)

/-- Take a maximal run of decimal digits. -/
def takeDigits : List Char → List Char → (List Char × List Char)
  | [], acc => (acc.reverse, [])
  | c :: cs, acc =>
      if c.isDigit then takeDigits cs (c :: acc) else (acc.reverse, c :: cs)

/-- Digits to a natural number. -/
def digitsToNat (ds : List Char) : Nat :=
  ds.foldl (fun n c => n * 10 + (c.toNat - 48)) 0

/-- Number after an optional consumed minus sign: integer part, and an
optional fractional part making the value a float. -/
def jsonParseNum (neg : Bool) (cs : List Char) : Option (Value × List Char) :=
  match takeDigits cs [] with
  | ([], _) => none
  | (ds, rest) =>
    let n : Int := if neg then -(digitsToNat ds : Int) else (digitsToNat ds : Int)
    match rest with
    | '.' :: rest₁ =>
      match takeDigits rest₁ [] with
      | ([], _) => none
      | (_, rest₂) => some (.vfloat n, rest₂)
    | _ => some (.vint n, rest)

mutual

/-- Modelled from the spec: the external JSON adapter's `parse`
contract, a recursive-descent reader of the JSON fragment the generator
can emit (null, booleans, integers, simple decimals, escape-free
strings, arrays, objects).  Fuel-indexed for termination. -/
def jsonParseVal : Nat → List Char → Option (Value × List Char)
  | 0, _ => none
  | fuel + 1, cs₀ =>
    match skipWs cs₀ with
    | 'n' :: 'u' :: 'l' :: 'l' :: cs => some (.vnone, cs)
    | 't' :: 'r' :: 'u' :: 'e' :: cs => some (.vbool true, cs)
    | 'f' :: 'a' :: 'l' :: 's' :: 'e' :: cs => some (.vbool false, cs)
    | '"' :: cs =>
        match takeStr cs [] with
        | some (s, rest) => some (.vstr s, rest)
        | none => none
    | '-' :: cs => jsonParseNum true cs
    | c :: cs =>
        if c.isDigit then jsonParseNum false (c :: cs)
        else if c = '\x5b' then
          match skipWs cs with
          | '\x5d' :: rest => some (.vlist [], rest)
          | rest => jsonParseItems fuel rest []
        else if c = '\x7b' then
          match skipWs cs with
          | '\x7d' :: rest => some (.vdict [], rest)
          | rest => jsonParseMembers fuel rest []
        else none
    | [] => none

/-- Array elements after `[`, accumulating in reverse. -/
def jsonParseItems : Nat → List Char → List Value → Option (Value × List Char)
  | 0, _, _ => none
  | fuel + 1, cs, acc =>
    match jsonParseVal fuel cs with
    | none => none
    | some (v, rest) =>
      match skipWs rest with
      | ',' :: rest₂ => jsonParseItems fuel rest₂ (v :: acc)
      | '\x5d' :: rest₂ => some (.vlist (v :: acc).reverse, rest₂)
      | _ => none

/-- Object members after `{`, accumulating in reverse. -/
def jsonParseMembers : Nat → List Char → List (String × Value) →
    Option (Value × List Char)
  | 0, _, _ => none
  | fuel + 1, cs, acc =>
    match skipWs cs with
    | '"' :: cs₁ =>
      match takeStr cs₁ [] with
      | none => none
      | some (k, rest) =>
        match skipWs rest with
        | ':' :: rest₁ =>
          match jsonParseVal fuel rest₁ with
          | none => none
          | some (v, rest₂) =>
            match skipWs rest₂ with
            | ',' :: rest₃ => jsonParseMembers fuel rest₃ ((k, v) :: acc)
            | '\x7d' :: rest₃ => some (.vdict ((k, v) :: acc).reverse, rest₃)
            | _ => none
        | _ => none
    | _ => none

end

/-- Parse a complete JSON document (no trailing garbage). -/
def jsonParse (s : String) : Option Value :=
  match jsonParseVal (s.length + 1) s.data with
  | some (v, rest) => if skipWs rest = [] then some v else none
  | none => none

/-- Split a character list on a separator character. -/
def splitOnChar (sep : Char) : List Char → List (List Char)
  | [] => [[]]
  | c :: cs =>
    match splitOnChar sep cs with
    | [] => [[c]]
    | g :: gs => if c = sep then [] :: g :: gs else (c :: g) :: gs

/-- Split a line at the first `": "` key/value separator. -/
def splitColon : List Char → Option (List Char × List Char)
  | [] => none
  | ':' :: ' ' :: rest => some ([], rest)
  | c :: rest =>
    match splitColon rest with
    | some (l, r) => some (c :: l, r)
    | none => none

/-- Read an optionally signed run of decimal digits. -/
def parseIntChars : List Char → Option Int
  | [] => none
  | '-' :: ds =>
    if ds ≠ [] ∧ ds.all Char.isDigit then some (-(digitsToNat ds : Int)) else none
  | ds =>
    if ds ≠ [] ∧ ds.all Char.isDigit then some (digitsToNat ds : Int) else none

/-- Modelled from the spec: the scalar-reading half of the external
YAML adapter's `parse` contract, for the plain scalars the generator's
YAML output contains. -/
def yamlParseScalar (cs : List Char) : Value :=
  let s := String.mk cs
  if s = "true" then .vbool true
  else if s = "false" then .vbool false
  else if s = "null" then .vnone
  else
    match parseIntChars cs with
    | some n => .vint n
    | none => .vstr s

/-- Key/value lines to entries; `none` on any malformed line. -/
def yamlEntries : List (List Char) → Option (List (String × Value))
  | [] => some []
  | line :: rest =>
    match splitColon line with
    | none => none
    | some (k, v) =>
      match yamlEntries rest with
      | none => none
      | some es => some ((String.mk k, yamlParseScalar v) :: es)

/-- Modelled from the spec: the external YAML adapter's `parse`
contract for a block-style mapping of plain scalars (one `key: value`
line per entry), the shape the generator's YAML serialization emits. -/
def yamlParse (s : String) : Option Value :=
  let lines := (splitOnChar '\n' s.data).filter (fun l => l ≠ [])
  match yamlEntries lines with
  | some kvs => some (.vdict kvs)
  | none => none

/-- The field table of the spec's running example schema
`{name: str, age: int}` (`DummyTemplate` in the test suite). -/
def dummyFields : List (String × Ty) := [("name", Ty.str), ("age", Ty.int)]

/-- Inner schema `{value: int}` (`NestedTemplate`). -/
def nestedFields : List (String × Ty) := [("value", Ty.int)]

/-- Outer schema `{name: str, nested: NestedTemplate}` (`ParentTemplate`). -/
def parentFields : List (String × Ty) :=
  [("name", Ty.str), ("nested", Ty.template nestedFields)]

/-- A sample nested generic tree exercising mappings at depth and a
mapping inside a sequence. -/
def sampleTree : List (String × Value) :=
  [("name", .vstr "Alice"),
   ("info", .vdict [("age", .vint 30),
                    ("details", .vdict [("city", .vstr "Wonderland")])]),
   ("tags", .vlist [.vdict [("key", .vstr "value")]])]

/- ## Helper lemmas -/

theorem setKey_notMem (acc : List (String × Value)) (k : String) (v : Value)
    (h : k ∉ acc.map Prod.fst) : setKey acc k v = acc ++ [(k, v)] := by
  induction acc with
  | nil => rfl
  | cons p rest ih =>
    obtain ⟨k', w⟩ := p
    simp only [List.map_cons, List.mem_cons] at h
    push_neg at h
    simp only [setKey, if_neg (Ne.symm h.1), List.cons_append]
    rw [ih h.2]

theorem lookup_setKey_self (kvs : List (String × Value)) (k : String) (v : Value) :
    lookup (setKey kvs k v) k = some v := by
  induction kvs with
  | nil => simp [setKey, lookup]
  | cons p rest ih =>
    obtain ⟨k', w⟩ := p
    by_cases h : k' = k
    · simp [setKey, lookup, h]
    · simp [setKey, lookup, h, ih]

theorem lookup_setKey_ne (kvs : List (String × Value)) (k k' : String) (v : Value)
    (h : k' ≠ k) : lookup (setKey kvs k v) k' = lookup kvs k' := by
  have hk : ¬(k = k') := fun hh => h hh.symm
  induction kvs with
  | nil =>
    simp only [setKey, lookup]
    rw [if_neg hk]
  | cons p rest ih =>
    obtain ⟨k₀, w⟩ := p
    by_cases h0 : k₀ = k
    · subst h0
      simp only [setKey, if_pos rfl, lookup]
      rw [if_neg hk, if_neg hk]
    · simp only [setKey, if_neg h0, lookup]
      by_cases h1 : k₀ = k'
      · rw [if_pos h1, if_pos h1]
      · rw [if_neg h1, if_neg h1, ih]

theorem keys_setKey (kvs : List (String × Value)) (k : String) (v : Value) :
    (setKey kvs k v).map Prod.fst =
      if k ∈ kvs.map Prod.fst then kvs.map Prod.fst else kvs.map Prod.fst ++ [k] := by
  induction kvs with
  | nil => simp [setKey]
  | cons p rest ih =>
    obtain ⟨k₀, w⟩ := p
    by_cases h0 : k₀ = k
    · simp [setKey, h0]
    · simp only [setKey, if_neg h0, List.map_cons, ih, List.mem_cons]
      by_cases hm : k ∈ rest.map Prod.fst
      · simp [hm, Ne.symm h0]
      · simp [hm, Ne.symm h0]

theorem buildEntries_eq (kvs : List (String × Value)) :
    ∀ acc : List (String × Value), (kvs.map Prod.fst).Nodup →
    (∀ k ∈ kvs.map Prod.fst, k ∉ acc.map Prod.fst) →
    buildEntries kvs acc = acc ++ kvs.map (fun p => (p.1, convertValue p.2)) := by
  induction kvs with
  | nil => intro acc _ _; simp [buildEntries]
  | cons p rest ih =>
    obtain ⟨k, v⟩ := p
    intro acc hnd hdisj
    rw [buildEntries, setKey_notMem acc k (convertValue v) (hdisj k (by simp))]
    rw [List.map_cons, List.nodup_cons] at hnd
    rw [ih (acc ++ [(k, convertValue v)]) hnd.2 ?_]
    · simp
    · intro k' hk'
      simp only [List.map_append, List.map_cons, List.map_nil, List.mem_append,
        List.mem_singleton]
      push_neg
      refine ⟨hdisj k' (by simp [hk']), ?_⟩
      intro he
      exact hnd.1 (he ▸ hk')

theorem exampleBuild_eq (fields : List (String × Ty)) :
    ∀ acc : List (String × Value), (fields.map Prod.fst).Nodup →
    (∀ k ∈ fields.map Prod.fst, k ∉ acc.map Prod.fst) →
    exampleBuild fields acc = acc ++ fields.map (fun p => (p.1, exampleValue p.2)) := by
  induction fields with
  | nil => intro acc _ _; simp [exampleBuild]
  | cons p rest ih =>
    obtain ⟨k, t⟩ := p
    intro acc hnd hdisj
    rw [exampleBuild, setKey_notMem acc k (exampleValue t) (hdisj k (by simp))]
    rw [List.map_cons, List.nodup_cons] at hnd
    rw [ih (acc ++ [(k, exampleValue t)]) hnd.2 ?_]
    · simp
    · intro k' hk'
      simp only [List.map_append, List.map_cons, List.map_nil, List.mem_append,
        List.mem_singleton]
      push_neg
      refine ⟨hdisj k' (by simp [hk']), ?_⟩
      intro he
      exact hnd.1 (he ▸ hk')

theorem lookup_map_convert (kvs : List (String × Value)) (key : String) :
    lookup (kvs.map fun p => (p.1, convertValue p.2)) key =
      Option.map convertValue (lookup kvs key) := by
  induction kvs with
  | nil => rfl
  | cons p rest ih =>
    obtain ⟨k, v⟩ := p
    by_cases h : k = key
    · simp [lookup, h]
    · simp [lookup, h, ih]

theorem allConfigsEntries_setKey (acc : List (String × Value)) (k : String) (v : Value)
    (hacc : allConfigsEntries acc = true) (hv : allConfigs v = true) :
    allConfigsEntries (setKey acc k v) = true := by
  induction acc with
  | nil => simp [setKey, allConfigsEntries, hv]
  | cons p rest ih =>
    obtain ⟨k₀, w⟩ := p
    have hacc' : (allConfigs w && allConfigsEntries rest) = true := hacc
    rw [Bool.and_eq_true] at hacc'
    by_cases h0 : k₀ = k
    · simp only [setKey, if_pos h0, allConfigsEntries, Bool.and_eq_true]
      exact ⟨hv, hacc'.2⟩
    · simp only [setKey, if_neg h0, allConfigsEntries, Bool.and_eq_true]
      exact ⟨hacc'.1, ih hacc'.2⟩

mutual

theorem allConfigs_convert : ∀ v : Value, allConfigs (convertValue v) = true
  | .vnone => rfl
  | .vbool _ => rfl
  | .vint _ => rfl
  | .vfloat _ => rfl
  | .vstr _ => rfl
  | .vlist xs => allConfigsItems_convert xs
  | .vdict kvs => allConfigsBuild kvs [] rfl
  | .vconfig kvs => allConfigsBuild kvs [] rfl

theorem allConfigsItems_convert : ∀ xs : List Value,
    allConfigsItems (convertItems xs) = true
  | [] => rfl
  | x :: xs => by
    show (allConfigs (convertValue x) && allConfigsItems (convertItems xs)) = true
    rw [allConfigs_convert x, allConfigsItems_convert xs, Bool.and_self]

theorem allConfigsBuild : ∀ (kvs acc : List (String × Value)),
    allConfigsEntries acc = true → allConfigsEntries (buildEntries kvs acc) = true
  | [], _, hacc => hacc
  | (k, v) :: rest, acc, hacc =>
    allConfigsBuild rest (setKey acc k (convertValue v))
      (allConfigsEntries_setKey acc k (convertValue v) hacc (allConfigs_convert v))

end

theorem wfKeys_of_lookup : ∀ (kvs : List (String × Value)) (key : String) (v : Value),
    wfKeysEntries kvs → lookup kvs key = some v → wfKeys v
  | [], _, _, _, h => by simp [lookup] at h
  | (k, w) :: rest, key, v, hwf, h => by
    have hwf' : wfKeys w ∧ wfKeysEntries rest := hwf
    by_cases hk : k = key
    · rw [lookup, if_pos hk] at h
      cases h
      exact hwf'.1
    · rw [lookup, if_neg hk] at h
      exact wfKeys_of_lookup rest key v hwf'.2 h

mutual

theorem strip_convert : ∀ v : Value, wfKeys v → strip (convertValue v) = strip v
  | .vnone, _ => rfl
  | .vbool _, _ => rfl
  | .vint _, _ => rfl
  | .vfloat _, _ => rfl
  | .vstr _, _ => rfl
  | .vlist xs, h => by
    show Value.vlist (stripItems (convertItems xs)) = Value.vlist (stripItems xs)
    rw [stripItems_convert xs h]
  | .vdict kvs, h => by
    have h' : (kvs.map Prod.fst).Nodup ∧ wfKeysEntries kvs := h
    show Value.vdict (stripEntries (buildEntries kvs [])) = Value.vdict (stripEntries kvs)
    rw [buildEntries_eq kvs [] h'.1 (by simp), List.nil_append,
      stripEntries_convert kvs h'.2]
  | .vconfig kvs, h => by
    have h' : (kvs.map Prod.fst).Nodup ∧ wfKeysEntries kvs := h
    show Value.vdict (stripEntries (buildEntries kvs [])) = Value.vdict (stripEntries kvs)
    rw [buildEntries_eq kvs [] h'.1 (by simp), List.nil_append,
      stripEntries_convert kvs h'.2]

theorem stripItems_convert : ∀ xs : List Value,
    wfKeysItems xs → stripItems (convertItems xs) = stripItems xs
  | [], _ => rfl
  | x :: xs, h => by
    have h' : wfKeys x ∧ wfKeysItems xs := h
    show strip (convertValue x) :: stripItems (convertItems xs) = strip x :: stripItems xs
    rw [strip_convert x h'.1, stripItems_convert xs h'.2]

theorem stripEntries_convert : ∀ kvs : List (String × Value), wfKeysEntries kvs →
    stripEntries (kvs.map fun p => (p.1, convertValue p.2)) = stripEntries kvs
  | [], _ => rfl
  | (k, v) :: rest, h => by
    have h' : wfKeys v ∧ wfKeysEntries rest := h
    show (k, strip (convertValue v)) :: stripEntries (rest.map fun p => (p.1, convertValue p.2)) =
      (k, strip v) :: stripEntries rest
    rw [strip_convert v h'.1, stripEntries_convert rest h'.2]

end

theorem lookup_mapExample : ∀ (fields : List (String × Ty)) (field : String) (ty : Ty),
    (fields.map Prod.fst).Nodup → (field, ty) ∈ fields →
    lookup (fields.map fun p => (p.1, exampleValue p.2)) field = some (exampleValue ty)
  | [], _, _, _, hmem => by simp at hmem
  | (k, t) :: rest, field, ty, hnd, hmem => by
    rw [List.map_cons, List.nodup_cons] at hnd
    rcases List.mem_cons.mp hmem with he | hm
    · injection he with h1 h2
      subst h1
      subst h2
      simp [lookup]
    · by_cases hk : k = field
      · exact absurd (List.mem_map.mpr ⟨(field, ty), hm, by rw [hk]⟩) hnd.1
      · rw [List.map_cons, lookup, if_neg hk]
        exact lookup_mapExample rest field ty hnd.2 hm

/- ## Claim theorems -/

/-- C1: constructing a `Config` from any mapping (well-formed generic
tree, keys unique at each level) succeeds; every key of the mapping is
then readable, attribute access and key access agree, every nested
mapping (at any depth, including inside sequences) has become a
`Config`, sequences are converted elementwise, scalars are unchanged,
and the value read at any key is structurally equal (up to the
`Config`-wrapper, erased by `strip`) to the mapping's value there.
Construction is a pure function of the input, so it does not mutate it. -/
theorem config_recursive_roundtrip (kvs : List (String × Value))
    (h : wfKeys (.vdict kvs)) :
    Config.ofValue (.vdict kvs) = .ok (.vconfig (buildEntries kvs []))
    ∧ allConfigs (.vconfig (buildEntries kvs [])) = true
    ∧ (∀ key, getAttrOpt (.vconfig (buildEntries kvs [])) key =
        getItemOpt (.vconfig (buildEntries kvs [])) key)
    ∧ (∀ key v, lookup kvs key = some v →
        getAttrOpt (.vconfig (buildEntries kvs [])) key = some (convertValue v)
        ∧ strip (convertValue v) = strip v)
    ∧ (∀ ds, convertValue (.vdict ds) = .vconfig (buildEntries ds []))
    ∧ (∀ xs, convertValue (.vlist xs) = .vlist (convertItems xs))
    ∧ (∀ s, convertValue (.vstr s) = .vstr s)
    ∧ (∀ n, convertValue (.vint n) = .vint n)
    ∧ (∀ n, convertValue (.vfloat n) = .vfloat n)
    ∧ (∀ b, convertValue (.vbool b) = .vbool b)
    ∧ convertValue .vnone = .vnone := by
  have h' : (kvs.map Prod.fst).Nodup ∧ wfKeysEntries kvs := h
  have hbe : buildEntries kvs [] = kvs.map (fun p => (p.1, convertValue p.2)) := by
    simpa using buildEntries_eq kvs [] h'.1 (by simp)
  refine ⟨rfl, allConfigsBuild kvs [] rfl, fun key => rfl, ?_, fun ds => rfl,
    fun xs => rfl, fun s => rfl, fun n => rfl, fun n => rfl, fun b => rfl, rfl⟩
  intro key v hv
  constructor
  · show lookup (buildEntries kvs []) key = some (convertValue v)
    rw [hbe, lookup_map_convert, hv]
    rfl
  · exact strip_convert v (wfKeys_of_lookup kvs key v h'.2 hv)

/-- Witness for C1 at a concrete nested tree. -/
theorem config_recursive_roundtrip_witness :
    Config.ofValue (.vdict sampleTree) = .ok (.vconfig (buildEntries sampleTree []))
    ∧ getAttrOpt (.vconfig (buildEntries sampleTree [])) "info" =
        some (convertValue (.vdict [("age", .vint 30),
          ("details", .vdict [("city", .vstr "Wonderland")])]))
    ∧ strip (convertValue (.vdict [("age", .vint 30),
        ("details", .vdict [("city", .vstr "Wonderland")])])) =
      strip (.vdict [("age", .vint 30),
        ("details", .vdict [("city", .vstr "Wonderland")])]) := by
  have h := config_recursive_roundtrip sampleTree
    (by simp +decide [sampleTree, wfKeys, wfKeysEntries, wfKeysItems])
  have hl : lookup sampleTree "info" = some (.vdict [("age", .vint 30),
      ("details", .vdict [("city", .vstr "Wonderland")])]) := rfl
  exact ⟨h.1, (h.2.2.2.1 "info" _ hl).1, (h.2.2.2.1 "info" _ hl).2⟩

/-- C2: on the schema `{name: str, age: int}`, validate accepts
`{name: "Bob", age: 25}`, reports `age` missing on `{name: "Bob"}`, and
reports the `int`/`str` mismatch on `{name: "Bob", age: "x"}`; in
general validation walks the field table in order and stops at the
first failing field, raising the missing-field error when the field is
absent and the type-mismatch error when the value fails the type
check. -/
theorem validate_flat_schema_fail_fast :
    Template.validateFields dummyFields
      (.vconfig [("name", .vstr "Bob"), ("age", .vint 25)]) = .ok ()
    ∧ Template.validateFields dummyFields (.vconfig [("name", .vstr "Bob")]) =
        .error "Missing required field: 'age'"
    ∧ Template.validateFields dummyFields
        (.vconfig [("name", .vstr "Bob"), ("age", .vstr "x")]) =
        .error "Field 'age' expected type 'int', got 'str'"
    ∧ (∀ field ty rest config, getAttrOpt config field = none →
        Template.validateFields ((field, ty) :: rest) config =
          .error ("Missing required field: '" ++ field ++ "'"))
    ∧ (∀ field ty rest config v, getAttrOpt config field = some v →
        (∀ inner, ty ≠ Ty.template inner) → checkType v ty = false →
        Template.validateFields ((field, ty) :: rest) config =
          .error ("Field '" ++ field ++ "' expected type '" ++ tyName ty ++
            "', got '" ++ typeName v ++ "'")) := by
  refine ⟨?_, ?_, ?_, ?_, ?_⟩
  · simp [Template.validateFields, dummyFields, getAttrOpt, lookup, checkType]
  · simp [Template.validateFields, dummyFields, getAttrOpt, lookup, checkType]
  · simp [Template.validateFields, dummyFields, getAttrOpt, lookup, checkType,
      tyName, typeName]
  · intro field ty rest config h
    simp [Template.validateFields, h]
  · intro field ty rest config v h hnt hc
    cases ty
    case template inner => exact absurd rfl (hnt inner)
    all_goals simp [Template.validateFields, h, hc, tyName]

/-- Witness for C2's generic fail-fast conjuncts at concrete inputs. -/
theorem validate_flat_schema_fail_fast_witness :
    Template.validateFields [("age", Ty.int)] (.vconfig []) =
      .error ("Missing required field: '" ++ "age" ++ "'")
    ∧ Template.validateFields [("age", Ty.int)] (.vconfig [("age", .vstr "x")]) =
      .error ("Field '" ++ "age" ++ "' expected type '" ++ tyName Ty.int ++
        "', got '" ++ typeName (.vstr "x") ++ "'") :=
  ⟨validate_flat_schema_fail_fast.2.2.2.1 "age" Ty.int [] (.vconfig []) rfl,
   validate_flat_schema_fail_fast.2.2.2.2 "age" Ty.int [] (.vconfig [("age", .vstr "x")])
     (.vstr "x") rfl (fun _ h => Ty.noConfusion h) rfl⟩

/-- C3: on the schema `{name: str, age: int}`, `generate("json")`
serializes an example document that parses back to exactly the mapping
`{"name": "example", "age": 0}`, and `generate("yaml")` serializes a
document that parses to the same logical mapping (identical key
lookups; YAML output is key-sorted, so entry order differs). -/
theorem generate_serialize_parse_roundtrip :
    (Template.generateCfg dummyFields "json").toOption.bind jsonParse =
      some (.vdict [("name", .vstr "example"), ("age", .vint 0)])
    ∧ (Template.generateCfg dummyFields "yaml").toOption.bind yamlParse =
      some (.vdict [("age", .vint 0), ("name", .vstr "example")])
    ∧ (∀ key, lookup [("age", Value.vint 0), ("name", Value.vstr "example")] key =
        lookup [("name", Value.vstr "example"), ("age", Value.vint 0)] key) := by
  refine ⟨rfl, rfl, ?_⟩
  intro key
  by_cases h1 : "age" = key
  · by_cases h2 : "name" = key
    · exact absurd (h2.trans h1.symm) (by decide)
    · simp only [lookup, if_pos h1, if_neg h2]
  · by_cases h2 : "name" = key
    · simp only [lookup, if_neg h1, if_pos h2]
    · simp only [lookup, if_neg h1, if_neg h2]

/-- C4: when a field's expected type is a nested schema and the nested
validation fails, the error is re-raised with the outer field name
prepended; concretely, `{name: "Parent", nested: {value: "x"}}` against
the parent schema fails with a message naming both `nested` and
`value`. -/
theorem validate_nested_error_path :
    (∀ field inner rest config value e,
      getAttrOpt config field = some value →
      Template.validateFields inner value = .error e →
      Template.validateFields ((field, Ty.template inner) :: rest) config =
        .error ("In field '" ++ field ++ "': " ++ e))
    ∧ Template.validateFields parentFields
        (.vconfig [("name", .vstr "Parent"), ("nested", .vconfig [("value", .vstr "x")])]) =
        .error "In field 'nested': Field 'value' expected type 'int', got 'str'" := by
  constructor
  · intro field inner rest config value e h1 h2
    simp [Template.validateFields, h1, h2]
  · simp [Template.validateFields, parentFields, nestedFields, getAttrOpt, lookup,
      checkType, tyName, typeName]

/-- Witness for C4's generic conjunct at a concrete nested config. -/
theorem validate_nested_error_path_witness :
    Template.validateFields [("nested", Ty.template nestedFields)]
      (.vconfig [("nested", .vconfig [("value", .vstr "x")])]) =
      .error ("In field '" ++ "nested" ++ "': " ++
        "Field 'value' expected type 'int', got 'str'") :=
  validate_nested_error_path.1 "nested" nestedFields []
    (.vconfig [("nested", .vconfig [("value", .vstr "x")])])
    (.vconfig [("value", .vstr "x")])
    "Field 'value' expected type 'int', got 'str'" rfl
    (by simp [Template.validateFields, nestedFields, getAttrOpt, lookup, checkType,
      tyName, typeName])

/-- C5 (counterexample): the claim says a boolean value must fail an
integer-typed field, but the code inherits Python's `bool <: int`
subtyping through `isinstance`, so validating `{age: True}` against
`{age: int}` succeeds instead of raising a type mismatch. -/
theorem bool_int_claim_counterexample :
    Template.validateFields [("age", Ty.int)] (.vconfig [("age", .vbool true)]) =
      .ok () := by
  simp [Template.validateFields, getAttrOpt, lookup, checkType]

/-- C5 (amended): a boolean value *satisfies* an integer-type
expectation (`isinstance(True, int)` holds), so validate raises no
error for such a field and proceeds to the remaining fields. -/
theorem validate_bool_satisfies_int :
    (∀ b, checkType (.vbool b) Ty.int = true)
    ∧ (∀ field rest config b, getAttrOpt config field = some (.vbool b) →
        Template.validateFields ((field, Ty.int) :: rest) config =
          Template.validateFields rest config) := by
  constructor
  · intro b
    rfl
  · intro field rest config b h
    simp [Template.validateFields, h, checkType]

/-- Witness for C5's amended claim on a concrete boolean field. -/
theorem validate_bool_satisfies_int_witness :
    Template.validateFields [("flag", Ty.int)] (.vconfig [("flag", .vbool false)]) =
      Template.validateFields [] (.vconfig [("flag", .vbool false)]) :=
  validate_bool_satisfies_int.2 "flag" [] (.vconfig [("flag", .vbool false)]) false rfl

/-- C6: the generated example tree assigns each field a value
determined only by its type tag — `int → 0`, `float → 0.0`,
`str → "example"`, `bool → false`, `list → []`, `dict → {}`, any other
type → null — and a nested-schema field gets that schema's recursively
built example tree; each field of a schema reads back its tag's example
value. -/
theorem generate_example_values :
    exampleValue Ty.int = .vint 0
    ∧ exampleValue Ty.float = .vfloat 0
    ∧ exampleValue Ty.str = .vstr "example"
    ∧ exampleValue Ty.bool = .vbool false
    ∧ exampleValue Ty.list = .vlist []
    ∧ exampleValue Ty.dict = .vdict []
    ∧ (∀ name, exampleValue (Ty.other name) = .vnone)
    ∧ (∀ inner, exampleValue (Ty.template inner) = .vdict (exampleBuild inner []))
    ∧ (∀ fields field ty, (fields.map Prod.fst).Nodup → (field, ty) ∈ fields →
        lookup (exampleBuild fields []) field = some (exampleValue ty)) := by
  refine ⟨rfl, rfl, rfl, rfl, rfl, rfl, fun _ => rfl, fun _ => rfl, ?_⟩
  intro fields field ty hnd hmem
  rw [exampleBuild_eq fields [] hnd (by simp), List.nil_append]
  exact lookup_mapExample fields field ty hnd hmem

/-- Witness for C6's lookup conjunct on the running example schema. -/
theorem generate_example_values_witness :
    lookup (exampleBuild dummyFields []) "age" = some (exampleValue Ty.int) :=
  generate_example_values.2.2.2.2.2.2.2.2 dummyFields "age" Ty.int (by decide)
    (List.mem_cons_of_mem _ (List.mem_cons_self _ _))

/-- C7: constructing a `Config` from any non-mapping value (null,
boolean, number, string, or a bare sequence) fails with the
input-shape `ValueError`, producing no `Config`. -/
theorem config_rejects_non_mapping :
    Config.ofValue .vnone = .error "Config data must be a dictionary"
    ∧ (∀ b, Config.ofValue (.vbool b) = .error "Config data must be a dictionary")
    ∧ (∀ n, Config.ofValue (.vint n) = .error "Config data must be a dictionary")
    ∧ (∀ n, Config.ofValue (.vfloat n) = .error "Config data must be a dictionary")
    ∧ (∀ s, Config.ofValue (.vstr s) = .error "Config data must be a dictionary")
    ∧ (∀ xs, Config.ofValue (.vlist xs) = .error "Config data must be a dictionary") :=
  ⟨rfl, fun _ => rfl, fun _ => rfl, fun _ => rfl, fun _ => rfl, fun _ => rfl⟩

/-- C8: `generate` fails with the unsupported-format error for every
format identifier whose lowercase form is none of `json`/`yaml`/`yml`,
regardless of the field table; and format matching is
case-insensitive — the output depends on the identifier only through
its lowercase form, so e.g. `"JSON"` behaves exactly like `"json"`. -/
theorem generate_unsupported_format :
    (∀ fields fmt, pyLower fmt ≠ "json" → pyLower fmt ≠ "yaml" → pyLower fmt ≠ "yml" →
      Template.generateCfg fields fmt = .error "Unsupported format. Use 'json' or 'yaml'.")
    ∧ (∀ fields, Template.generateCfg fields "xml" =
        .error "Unsupported format. Use 'json' or 'yaml'.")
    ∧ (∀ fields fmt fmt', pyLower fmt = pyLower fmt' →
        Template.generateCfg fields fmt = Template.generateCfg fields fmt')
    ∧ (∀ fields, Template.generateCfg fields "JSON" = Template.generateCfg fields "json") := by
  refine ⟨?_, ?_, ?_, ?_⟩
  · intro fields fmt h1 h2 h3
    simp [Template.generateCfg, h1, h2, h3]
  · intro fields
    rfl
  · intro fields fmt fmt' h
    simp only [Template.generateCfg, h]
  · intro fields
    rfl

/-- Witness for C8's hypothesis-bearing conjuncts at concrete formats. -/
theorem generate_unsupported_format_witness :
    Template.generateCfg dummyFields "toml" =
      .error "Unsupported format. Use 'json' or 'yaml'."
    ∧ Template.generateCfg dummyFields "YML" = Template.generateCfg dummyFields "yml" :=
  ⟨generate_unsupported_format.1 dummyFields "toml" (by decide) (by decide) (by decide),
   generate_unsupported_format.2.2.1 dummyFields "YML" "yml" (by decide)⟩

/-- C9: setting a field (attribute syntax and key syntax both write
`self[key] = value` on the same underlying dict) makes the new value
observable identically through attribute and key reads; the value is
stored exactly as given (a raw mapping stays a raw mapping, with no
recursive conversion); other keys are untouched; the key is appended
when absent and overwritten in place when present. -/
theorem config_set_field_dual_access :
    (∀ kvs key v, getAttrOpt (.vconfig (Config.setField kvs key v)) key = some v)
    ∧ (∀ kvs key v, getItemOpt (.vconfig (Config.setField kvs key v)) key = some v)
    ∧ (∀ kvs key ds, getItemOpt (.vconfig (Config.setField kvs key (.vdict ds))) key =
        some (.vdict ds))
    ∧ (∀ kvs key v key', key' ≠ key →
        lookup (Config.setField kvs key v) key' = lookup kvs key')
    ∧ (∀ kvs key v, (Config.setField kvs key v).map Prod.fst =
        if key ∈ kvs.map Prod.fst then kvs.map Prod.fst
        else kvs.map Prod.fst ++ [key]) := by
  refine ⟨?_, ?_, ?_, ?_, ?_⟩
  · intro kvs key v
    exact lookup_setKey_self kvs key v
  · intro kvs key v
    exact lookup_setKey_self kvs key v
  · intro kvs key ds
    exact lookup_setKey_self kvs key (.vdict ds)
  · intro kvs key v key' h
    exact lookup_setKey_ne kvs key key' v h
  · intro kvs key v
    exact keys_setKey kvs key v

/-- Witness for C9's other-keys-unchanged conjunct. -/
theorem config_set_field_dual_access_witness :
    lookup (Config.setField [("a", .vint 1)] "b" (.vint 2)) "a" =
      lookup [("a", Value.vint 1)] "a" :=
  config_set_field_dual_access.2.2.2.1 [("a", .vint 1)] "b" (.vint 2) "a" (by decide)

/-- C10: `Template.validate` tests field presence with `hasattr` and
reads with `getattr`, not key membership, so validating a plain dict
(not wrapped in a `Config`) reports the schema's first field as missing
even when the dict holds that key with a correctly typed value, while
the same data wrapped as a `Config` validates. -/
theorem validate_requires_attribute_access :
    (∀ field ty rest kvs, Template.validateFields ((field, ty) :: rest) (.vdict kvs) =
      .error ("Missing required field: '" ++ field ++ "'"))
    ∧ Template.validateFields [("name", Ty.str)] (.vdict [("name", .vstr "Bob")]) =
        .error "Missing required field: 'name'"
    ∧ Template.validateFields [("name", Ty.str)] (.vconfig [("name", .vstr "Bob")]) =
        .ok () := by
  refine ⟨?_, ?_, ?_⟩
  · intro field ty rest kvs
    simp [Template.validateFields, getAttrOpt]
  · simp [Template.validateFields, getAttrOpt]
  · simp [Template.validateFields, getAttrOpt, lookup, checkType]

end Loadcfg
